import Mathlib

/-!
Verification of the asynchronous resume-processing pipeline: a shallow
embedding of the three queue-driven stage workers (Parser, Extractor,
Scorer), the queue helper that builds the inter-stage messages, the ad hoc
retry loop around the external inference call, the status-store write
semantics, and the byte-bounded text truncation helper.

Conventions of the embedding:
- JavaScript values that may be undefined are modelled as Option.
- A worker lambda that throws is modelled as Except.error; the per-item
  try/catch blocks are modelled by the explicit failure branches.
- External collaborators (the inference service, the PDF parser, the job
  table read, JSON parsing of inference replies) are injected as function
  parameters, so a theorem can quantify over their outcomes.
- Store and queue side effects are collected into lists, in program order.
- Timestamps and log output are not modelled; they influence no claim.
-/

namespace Pipeline

/-- Processing status constants, from the PROCESSING_STATUS object of the
constants module. -/
inductive Status
  | PENDING
  | PARSING
  | EXTRACTING_SKILLS
  | SCORING
  | COMPLETED
  | FAILED
deriving DecidableEq, Repr

/-- Position of a status in the forward progression PENDING, PARSING,
EXTRACTING_SKILLS, SCORING, COMPLETED; FAILED sits outside the
progression. -/
def statusRank : Status → Nat
  | Status.PENDING => 0
  | Status.PARSING => 1
  | Status.EXTRACTING_SKILLS => 2
  | Status.SCORING => 3
  | Status.COMPLETED => 4
  | Status.FAILED => 5

/-- A list of written statuses never regresses: every later non-FAILED
write ranks at least as high as every earlier non-FAILED write. -/
def StatusMonotone (l : List Status) : Prop :=
  l.Pairwise fun a b => a ≠ Status.FAILED → b ≠ Status.FAILED → statusRank a ≤ statusRank b

/-- Statuses written for one processing id, in write order, extracted from
a combined write trace. The key is an Option String because a JavaScript
message may carry no processingId (undefined). -/
def writesFor (pid : Option String) (ws : List (Option String × Status)) : List Status :=
  (ws.filter fun w => w.1 = pid).map fun w => w.2

/-- Retry loop of extractSkillsFromText (skillExtractor.js lines 69-98).
The loop body is one attempt, invoked with the current value of the
attempts counter; on an exception the counter is incremented, the loop
rethrows once the counter reaches maxAttempts, and otherwise sleeps
1000 * attempts milliseconds before the next attempt. The fuel argument
equals maxAttempts - attempts, so fuel > 0 is exactly the while condition
attempts < maxAttempts; a none result is the loop falling through without
returning (unreachable whenever maxAttempts > attempts at entry). The
result triple is (returned value or rethrown error, number of body
invocations, sleep delays in order). -/
def retryGo {ε α : Type} (body : Nat → Except ε α) (maxAttempts : Nat) :
    Nat → Nat → Option (Except ε α) × Nat × List Nat
  | _, 0 => (none, 0, [])
  | attempts, fuel + 1 =>
    match body attempts with
    | Except.ok a => (some (Except.ok a), 1, [])
    | Except.error e =>
      if attempts + 1 = maxAttempts then (some (Except.error e), 1, [])
      else
        let r := retryGo body maxAttempts (attempts + 1) fuel
        (r.1, r.2.1 + 1, 1000 * (attempts + 1) :: r.2.2)

/-- One full run of the retry loop with maxAttempts = 3, starting from
attempts = 0, as extractSkillsFromText performs it. -/
def invokeWithRetry {ε α : Type} (body : Nat → Except ε α) :
    Option (Except ε α) × Nat × List Nat :=
  retryGo body 3 0 3

/-- Body of one attempt of the Extractor's retry loop (skillExtractor.js
lines 73-87): invoke the inference model, then parse its reply content as
structured data; both steps throw into the same surrounding catch. The
attempt index is passed to invokeLLM so a theorem can speak about the
reply of each separate inference invocation. -/
def extractAttemptBody {ε ρ σ : Type} (invokeLLM : Nat → Except ε ρ)
    (parseContent : ρ → Except ε σ) (i : Nat) : Except ε σ :=
  match invokeLLM i with
  | Except.error e => Except.error e
  | Except.ok r => parseContent r

/-- The retry loop applied to the invoke-then-parse attempt body, as in
extractSkillsFromText. The middle component of the result counts attempt
bodies executed, which equals the number of inference invocations whenever
invokeLLM itself returns (each executed body calls invokeLLM exactly
once). -/
def extractSkillsAttempts {ε ρ σ : Type} (invokeLLM : Nat → Except ε ρ)
    (parseContent : ρ → Except ε σ) : Option (Except ε σ) × Nat × List Nat :=
  invokeWithRetry (extractAttemptBody invokeLLM parseContent)

/-- Candidate skills as extracted: a JSON object mapping category names to
lists of skill names. -/
abbrev Skills := List (String × List String)

/-- A job record as read by getJobRequirements (skillExtractor.js lines
110-129); the requirements attribute may be absent, and the Extractor
falls back to an empty list when forwarding it. -/
structure Job where
  requirements : Option (List String)
deriving DecidableEq, Repr

/-- An SQS record as delivered to a worker: its messageId and the result
of JSON.parse on its body (error when the body is not valid JSON). -/
structure SqsRecord (β : Type) where
  messageId : String
  body : Except String β

instance {ε α : Type} [DecidableEq ε] [DecidableEq α] : DecidableEq (Except ε α)
  | Except.ok a, Except.ok b => decidable_of_iff (a = b) (by simp)
  | Except.error a, Except.error b => decidable_of_iff (a = b) (by simp)
  | Except.ok _, Except.error _ => isFalse (fun h => Except.noConfusion h)
  | Except.error _, Except.ok _ => isFalse (fun h => Except.noConfusion h)

instance {β : Type} [DecidableEq β] : DecidableEq (SqsRecord β) :=
  fun a b =>
    decidable_of_iff (a.messageId = b.messageId ∧ a.body = b.body)
      (by cases a; cases b; simp)

/-- Body of a RESUME_PROCESSING message, as built by
sendResumeForProcessing (queue.lib.js lines 164-195). -/
structure ResumeMsg where
  type : String
  resumeId : String
  jobId : String
  s3Key : String
  candidateEmail : String
deriving DecidableEq, Repr

/-- Body of a SKILL_EXTRACTION message. JSON envelopes are duck typed, so
the model carries both the parsedContent field that sendForSkillExtraction
(queue.lib.js line 208) serializes and the differently named parsedText
field that the Extractor destructures (skillExtractor.js line 247); a
field a producer does not set is none (undefined, dropped by
JSON.stringify). -/
structure SkillExtractionMsg where
  type : String
  resumeId : String
  jobId : String
  parsedContent : Option String
  parsedText : Option String
  candidateEmail : String
  processingId : Option String
deriving DecidableEq, Repr

/-- Argument of sendForSkillExtraction: the fields of parsedResumeData
that queue.lib.js reads. The Parser call site (resume parser worker,
lines 541-546) passes no processingId, so that field is none there. -/
structure ParsedResumeData where
  resumeId : String
  jobId : String
  parsedContent : String
  candidateEmail : String
  processingId : Option String
deriving DecidableEq, Repr

/-- Message body enqueued by sendForSkillExtraction (queue.lib.js lines
202-234). The timestamp field is not modelled. -/
def sendForSkillExtraction (d : ParsedResumeData) : SkillExtractionMsg :=
  { type := "SKILL_EXTRACTION"
    resumeId := d.resumeId
    jobId := d.jobId
    parsedContent := some d.parsedContent
    parsedText := none
    candidateEmail := d.candidateEmail
    processingId := d.processingId }

/-- Body of a SCORING message, as built by sendForScoring. -/
structure ScoringMsg where
  type : String
  resumeId : String
  jobId : String
  extractedSkills : Skills
  jobRequirements : List String
  processingId : Option String
deriving DecidableEq, Repr

/-- Argument of sendForScoring: the fields of skillData that queue.lib.js
reads. -/
structure SkillData where
  resumeId : String
  jobId : String
  extractedSkills : Skills
  jobRequirements : List String
  processingId : Option String
deriving DecidableEq, Repr

/-- Message body enqueued by sendForScoring (queue.lib.js lines 241-273).
The timestamp field is not modelled. -/
def sendForScoring (d : SkillData) : ScoringMsg :=
  { type := "SCORING"
    resumeId := d.resumeId
    jobId := d.jobId
    extractedSkills := d.extractedSkills
    jobRequirements := d.jobRequirements
    processingId := d.processingId }

/-- A parsed-resume record as accumulated by the Parser worker
(processingResults entries, resume parser worker lines 529-538). -/
structure ResumeData where
  resumeId : String
  jobId : String
  candidateEmail : String
  s3Key : String
  parsedText : String
  processingId : String
deriving DecidableEq, Repr

/-- Accumulator of the Parser worker's batch loop: the SQS failure list,
the parsed-resume records collected for the batched store, the
ProcessingStatus writes issued so far (key, status) in order, and the
SKILL_EXTRACTION messages enqueued so far. -/
structure ParserAcc where
  batchItemFailures : List String
  processingResults : List ResumeData
  statusWrites : List (Option String × Status)
  messages : List SkillExtractionMsg
deriving DecidableEq

/-- Initial accumulator of the Parser batch loop. -/
def parserEmptyAcc : ParserAcc :=
  { batchItemFailures := [], processingResults := [], statusWrites := [], messages := [] }

/-- Per-record loop of the resume parser worker main (second worker in
skillExtractor.js, lines 493-553). JSON.parse of the record body runs
before the per-item try block, so a body parse error propagates out of the
loop and aborts the invocation. A message whose type is not
RESUME_PROCESSING is skipped. Otherwise a fresh processingId is drawn from
genId (the uuidv4 call; n counts the draws), a PARSING status is written,
the PDF is parsed via parsePDF (throwing on failure, which the per-item
catch turns into a batch item failure without any FAILED status write),
and on success the resume data is collected and a SKILL_EXTRACTION message
is sent - with no processingId in its argument. -/
def parserProcessItem (parsePDF : String → Except String String) (acc : ParserAcc)
    (mid pid : String) (msg : ResumeMsg) : ParserAcc :=
  let acc1 :=
    { acc with statusWrites := acc.statusWrites ++ [(some pid, Status.PARSING)] }
  match parsePDF msg.s3Key with
  | Except.error _ =>
    { acc1 with batchItemFailures := acc1.batchItemFailures ++ [mid] }
  | Except.ok text =>
    { acc1 with
      processingResults := acc1.processingResults ++
        [{ resumeId := msg.resumeId, jobId := msg.jobId,
           candidateEmail := msg.candidateEmail, s3Key := msg.s3Key,
           parsedText := text, processingId := pid }],
      messages := acc1.messages ++
        [sendForSkillExtraction
          { resumeId := msg.resumeId, jobId := msg.jobId, parsedContent := text,
            candidateEmail := msg.candidateEmail, processingId := none }] }

/-- Per-record loop of the resume parser worker main, continued: each
matching message consumes one generated id and is processed by
parserProcessItem; mismatched types are skipped without consuming an
id. -/
def parserGo (parsePDF : String → Except String String) (genId : Nat → String) :
    ParserAcc → Nat → List (SqsRecord ResumeMsg) → Except String ParserAcc
  | acc, _, [] => Except.ok acc
  | acc, n, r :: rest =>
    match r.body with
    | Except.error e => Except.error e
    | Except.ok msg =>
      if msg.type = "RESUME_PROCESSING" then
        parserGo parsePDF genId (parserProcessItem parsePDF acc r.messageId (genId n) msg)
          (n + 1) rest
      else parserGo parsePDF genId acc n rest

/-- Batch result of the resume parser worker: the returned object carries
only batchItemFailures (lines 578-580); the stored resumes, status writes
and outgoing messages are the collected side effects. -/
structure ParserResult where
  batchItemFailures : List String
  statusWrites : List (Option String × Status)
  skillExtractionMessages : List SkillExtractionMsg
  storedResumes : List ResumeData
deriving DecidableEq

/-- Main of the resume parser worker (lines 485-585): run the batch loop,
batch-store the parsed resumes, then write the final EXTRACTING_SKILLS
status for every successfully processed item (lines 561-571). -/
def parserMain (parsePDF : String → Except String String) (genId : Nat → String)
    (records : List (SqsRecord ResumeMsg)) : Except String ParserResult :=
  (parserGo parsePDF genId parserEmptyAcc 0 records).map fun acc =>
    { batchItemFailures := acc.batchItemFailures,
      statusWrites := acc.statusWrites ++
        acc.processingResults.map (fun d => (some d.processingId, Status.EXTRACTING_SKILLS)),
      skillExtractionMessages := acc.messages,
      storedResumes := acc.processingResults }

/-- Accumulator of the Extractor worker's batch loop. -/
structure ExtractorAcc where
  batchItemFailures : List String
  processingResults : List (String × Skills)
  statusWrites : List (Option String × Status)
  scoringMessages : List ScoringMsg
deriving DecidableEq

/-- Initial accumulator of the Extractor batch loop. -/
def extractorEmptyAcc : ExtractorAcc :=
  { batchItemFailures := [], processingResults := [], statusWrites := [], scoringMessages := [] }

/-- Catch branch of the Extractor's per-item try (skillExtractor.js lines
292-315): the messageId joins the batch failure list, and a FAILED status
is written only when the message carried a processingId. -/
def extractorFailItem (acc : ExtractorAcc) (mid : String) (pid : Option String) :
    ExtractorAcc :=
  { acc with
    batchItemFailures := acc.batchItemFailures ++ [mid]
    statusWrites := acc.statusWrites ++
      (match pid with
       | some p => [(some p, Status.FAILED)]
       | none => []) }

/-- One SKILL_EXTRACTION message processed by the Extractor main
(skillExtractor.js lines 244-315): write the EXTRACTING_SKILLS status
(keyed by the message's possibly-undefined processingId), run
extractSkillsFromText - which throws a TypeError immediately when the
destructured parsedText field is undefined (line 64 reads
resumeText.length), and otherwise has the injected outcome ex - then
getJobRequirements via gj, then collect the resume update, write the
COMPLETED status and send the SCORING message. Every throw lands in the
catch branch extractorFailItem. -/
def extractorProcessItem (ex : String → Except String Skills)
    (gj : String → Except String Job) (acc : ExtractorAcc) (mid : String)
    (msg : SkillExtractionMsg) : ExtractorAcc :=
  let acc1 :=
    { acc with statusWrites := acc.statusWrites ++
        [(msg.processingId, Status.EXTRACTING_SKILLS)] }
  match msg.parsedText with
  | none => extractorFailItem acc1 mid msg.processingId
  | some text =>
    match ex text with
    | Except.error _ => extractorFailItem acc1 mid msg.processingId
    | Except.ok skills =>
      match gj msg.jobId with
      | Except.error _ => extractorFailItem acc1 mid msg.processingId
      | Except.ok job =>
        { acc1 with
          processingResults := acc1.processingResults ++ [(msg.resumeId, skills)],
          statusWrites := acc1.statusWrites ++ [(msg.processingId, Status.COMPLETED)],
          scoringMessages := acc1.scoringMessages ++
            [sendForScoring
              { resumeId := msg.resumeId, jobId := msg.jobId, extractedSkills := skills,
                jobRequirements := job.requirements.getD [],
                processingId := msg.processingId }] }

/-- Per-record loop of the Extractor main (skillExtractor.js lines
232-316). JSON.parse of the record body runs before the per-item try
block, so a body parse error aborts the invocation; a message whose type
is not SKILL_EXTRACTION is skipped. -/
def extractorGo (ex : String → Except String Skills) (gj : String → Except String Job) :
    ExtractorAcc → List (SqsRecord SkillExtractionMsg) → Except String ExtractorAcc
  | acc, [] => Except.ok acc
  | acc, r :: rest =>
    match r.body with
    | Except.error e => Except.error e
    | Except.ok msg =>
      if msg.type = "SKILL_EXTRACTION" then
        extractorGo ex gj (extractorProcessItem ex gj acc r.messageId msg) rest
      else extractorGo ex gj acc rest

/-- Batch result of the Extractor main (skillExtractor.js lines 323-331):
processedCount is the record count minus the failure count, so a skipped
message is counted as processed. -/
structure ExtractorResult where
  processedCount : Nat
  failedCount : Nat
  batchItemFailures : List String
  statusWrites : List (Option String × Status)
  scoringMessages : List ScoringMsg
  resumeUpdates : List (String × Skills)
deriving DecidableEq

/-- Main of the Extractor worker (skillExtractor.js lines 224-336). -/
def extractorMain (ex : String → Except String Skills) (gj : String → Except String Job)
    (records : List (SqsRecord SkillExtractionMsg)) : Except String ExtractorResult :=
  (extractorGo ex gj extractorEmptyAcc records).map fun acc =>
    { processedCount := records.length - acc.batchItemFailures.length,
      failedCount := acc.batchItemFailures.length,
      batchItemFailures := acc.batchItemFailures,
      statusWrites := acc.statusWrites,
      scoringMessages := acc.scoringMessages,
      resumeUpdates := acc.processingResults }

/-- A match score object as parsed from (or substituted for) the inference
reply of the Scorer. -/
structure MatchScore where
  overallScore : ℚ
  technicalMatch : ℚ
  experienceMatch : ℚ
  missingSkills : List String
  bonusSkills : List String
  detailedAnalysis : String
  recommendations : String
  confidence : ℚ
deriving DecidableEq, Repr

/-- Fallback score object of calculateMatchScore (scorer.js lines
96-105), substituted when the inference reply cannot be parsed as JSON. -/
def fallbackMatchScore : MatchScore :=
  { overallScore := 50
    technicalMatch := 50
    experienceMatch := 50
    missingSkills := []
    bonusSkills := []
    detailedAnalysis := "Analysis unavailable due to parsing error"
    recommendations := "Unable to provide recommendations"
    confidence := 3 / 10 }

/-- calculateMatchScore (scorer.js lines 72-114): render the scoring
prompt from the job requirements and candidate skills and invoke the
inference model (invokeModel abstracts both; an error is rethrown), then
parse the reply; parseScore abstracts JSON.parse composed with the
markdown-fence cleanup regex, returning none when parsing fails, in which
case the fallback object is returned instead of an error. -/
def calculateMatchScore (invokeModel : List String × Skills → Except String String)
    (parseScore : String → Option MatchScore)
    (jobRequirements : List String) (candidateSkills : Skills) : Except String MatchScore :=
  match invokeModel (jobRequirements, candidateSkills) with
  | Except.error e => Except.error e
  | Except.ok response =>
    match parseScore response with
    | some ms => Except.ok ms
    | none => Except.ok fallbackMatchScore

/-- A stored match score record (storeMatchScore, scorer.js lines
121-150), keyed by resumeId-jobId. -/
structure MatchRecord where
  id : String
  resumeId : String
  jobId : String
  score : MatchScore
deriving DecidableEq

/-- Accumulator of the Scorer worker's batch loop: status writes, stored
match records, and resume-table status updates (resumeId, matchScore). -/
structure ScorerAcc where
  statusWrites : List (Option String × Status)
  storedScores : List MatchRecord
  resumeStatusUpdates : List (String × ℚ)
deriving DecidableEq

/-- Initial accumulator of the Scorer batch loop. -/
def scorerEmptyAcc : ScorerAcc :=
  { statusWrites := [], storedScores := [], resumeStatusUpdates := [] }

/-- One SCORING message processed by the Scorer main (scorer.js lines
238-274): write the SCORING status, calculate the match score (an error
lands in the catch, which writes FAILED and moves on), then store the
match record keyed resumeId-jobId, update the resume status with the
overall score, and write the COMPLETED status. -/
def scorerProcessItem (invokeModel : List String × Skills → Except String String)
    (parseScore : String → Option MatchScore) (acc : ScorerAcc) (msg : ScoringMsg) :
    ScorerAcc :=
  let acc1 :=
    { acc with statusWrites := acc.statusWrites ++ [(msg.processingId, Status.SCORING)] }
  match calculateMatchScore invokeModel parseScore msg.jobRequirements msg.extractedSkills with
  | Except.error _ =>
    { acc1 with statusWrites := acc1.statusWrites ++ [(msg.processingId, Status.FAILED)] }
  | Except.ok ms =>
    { acc1 with
      storedScores := acc1.storedScores ++
        [{ id := msg.resumeId ++ "-" ++ msg.jobId, resumeId := msg.resumeId,
           jobId := msg.jobId, score := ms }],
      resumeStatusUpdates := acc1.resumeStatusUpdates ++ [(msg.resumeId, ms.overallScore)],
      statusWrites := acc1.statusWrites ++ [(msg.processingId, Status.COMPLETED)] }

/-- Per-record loop of the Scorer main (scorer.js lines 221-275).
JSON.parse of the record body runs before the per-item try block, so a
body parse error aborts the invocation; a message whose type is not
SCORING is skipped. -/
def scorerGo (invokeModel : List String × Skills → Except String String)
    (parseScore : String → Option MatchScore) :
    ScorerAcc → List (SqsRecord ScoringMsg) → Except String ScorerAcc
  | acc, [] => Except.ok acc
  | acc, r :: rest =>
    match r.body with
    | Except.error e => Except.error e
    | Except.ok msg =>
      if msg.type = "SCORING" then
        scorerGo invokeModel parseScore (scorerProcessItem invokeModel parseScore acc msg) rest
      else scorerGo invokeModel parseScore acc rest

/-- Batch result of the Scorer main (scorer.js lines 277-283): only a
processedCount equal to the full record count; no failure count and no
failed identifiers are reported. -/
structure ScorerResult where
  processedCount : Nat
  statusWrites : List (Option String × Status)
  storedScores : List MatchRecord
  resumeStatusUpdates : List (String × ℚ)
deriving DecidableEq

/-- Main of the Scorer worker (scorer.js lines 217-288). -/
def scorerMain (invokeModel : List String × Skills → Except String String)
    (parseScore : String → Option MatchScore)
    (records : List (SqsRecord ScoringMsg)) : Except String ScorerResult :=
  (scorerGo invokeModel parseScore scorerEmptyAcc records).map fun acc =>
    { processedCount := records.length,
      statusWrites := acc.statusWrites,
      storedScores := acc.storedScores,
      resumeStatusUpdates := acc.resumeStatusUpdates }

/-- Outcome of one Extractor item, as a pure function mirroring
extractorProcessItem: none when the item fails (undefined parsedText,
extraction error, or job lookup error), otherwise the collected resume
update and the SCORING message it sends. -/
def extractorItemOut (ex : String → Except String Skills) (gj : String → Except String Job)
    (msg : SkillExtractionMsg) : Option ((String × Skills) × ScoringMsg) :=
  match msg.parsedText with
  | none => none
  | some text =>
    match ex text with
    | Except.error _ => none
    | Except.ok skills =>
      match gj msg.jobId with
      | Except.error _ => none
      | Except.ok job =>
        some ((msg.resumeId, skills),
          sendForScoring
            { resumeId := msg.resumeId, jobId := msg.jobId, extractedSkills := skills
              jobRequirements := job.requirements.getD []
              processingId := msg.processingId })

/-- Whether an Extractor record fails item-level processing (its body
being well typed): true exactly when extractorProcessItem takes the catch
branch. -/
def extractorRecordFails (ex : String → Except String Skills)
    (gj : String → Except String Job) (r : SqsRecord SkillExtractionMsg) : Bool :=
  match r.body with
  | Except.error _ => false
  | Except.ok msg => (extractorItemOut ex gj msg).isNone

/-- The SCORING message an Extractor record produces, if any. -/
def extractorRecordOut (ex : String → Except String Skills)
    (gj : String → Except String Job) (r : SqsRecord SkillExtractionMsg) :
    Option ScoringMsg :=
  match r.body with
  | Except.error _ => none
  | Except.ok msg => (extractorItemOut ex gj msg).map fun o => o.2

/-- Outcome of one Parser item: none when parsePDF throws, otherwise the
SKILL_EXTRACTION message it sends (which never depends on the generated
processingId). -/
def parserItemOut (parsePDF : String → Except String String) (msg : ResumeMsg) :
    Option SkillExtractionMsg :=
  match parsePDF msg.s3Key with
  | Except.error _ => none
  | Except.ok text =>
    some (sendForSkillExtraction
      { resumeId := msg.resumeId, jobId := msg.jobId, parsedContent := text
        candidateEmail := msg.candidateEmail, processingId := none })

/-- Whether a Parser record fails item-level processing. -/
def parserRecordFails (parsePDF : String → Except String String)
    (r : SqsRecord ResumeMsg) : Bool :=
  match r.body with
  | Except.error _ => false
  | Except.ok msg => (parserItemOut parsePDF msg).isNone

/-- The SKILL_EXTRACTION message a Parser record produces, if any. -/
def parserRecordOut (parsePDF : String → Except String String)
    (r : SqsRecord ResumeMsg) : Option SkillExtractionMsg :=
  match r.body with
  | Except.error _ => none
  | Except.ok msg => parserItemOut parsePDF msg

/-- A DynamoDB item, as a partial map from attribute names to values (all
values rendered as strings; absent attribute = none). -/
def DbItem : Type := String → Option String

/-- The ProcessingStatus table, as a map from record id to item; an absent
record is the empty item. -/
def Store : Type := String → DbItem

/-- PutItem semantics: the written item replaces the whole record stored
under the key. -/
def putItem (store : Store) (id : String) (item : DbItem) : Store :=
  fun k => if k = id then item else store k

/-- UpdateItem SET semantics: attributes named in the update overwrite the
stored ones, all other attributes of the record are kept. -/
def updateItem (store : Store) (id : String) (fields : DbItem) : Store :=
  fun k =>
    if k = id then
      fun f =>
        match fields f with
        | some v => some v
        | none => store k f
    else store k

/-- The item built by the updateProcessingStatuses PutRequest of the
Parser and Extractor workers (skillExtractor.js lines 192-200 and
453-461): object spread of additionalData last, after id, status and
updatedAt, so an additionalData attribute of the same name would win. -/
def mkStatusPutItem (pid status updatedAt : String) (additionalData : DbItem) : DbItem :=
  fun f =>
    match additionalData f with
    | some v => some v
    | none =>
      if f = "id" then some pid
      else if f = "status" then some status
      else if f = "updatedAt" then some updatedAt
      else none

/-- A status write of the Parser or Extractor worker: updateProcessingStatuses
issues a whole-item PutRequest for the record. -/
def statusPutWrite (store : Store) (pid status updatedAt : String)
    (additionalData : DbItem) : Store :=
  putItem store pid (mkStatusPutItem pid status updatedAt additionalData)

/-- A status write of the Scorer worker: updateProcessingStatus (scorer.js
lines 184-212) issues an UpdateCommand that SETs status, updatedAt and the
additionalData attributes (every key except id). -/
def statusUpdateWrite (store : Store) (pid status updatedAt : String)
    (additionalData : DbItem) : Store :=
  updateItem store pid fun f =>
    if f = "status" then some status
    else if f = "updatedAt" then some updatedAt
    else if f = "id" then none
    else additionalData f

/-- Byte limit used by the truncation helper: MAX_DYNAMODB_ITEM_SIZE from
the constants module, 350 KiB. -/
def MAX_DYNAMODB_ITEM_SIZE : Nat := 350 * 1024

/-- Number of bytes of the UTF-8 encoding of one Unicode scalar value. -/
def utf8Len (c : Nat) : Nat :=
  if c < 0x80 then 1
  else if c < 0x800 then 2
  else if c < 0x10000 then 3
  else 4

/-- UTF-8 byte length of a text, the text being modelled as its list of
Unicode scalar values; this is Buffer.from(text, utf8).length. -/
def utf8ByteLength (s : List Nat) : Nat := (s.map utf8Len).sum

/-- Decoding of buffer.slice(0, budget).toString(utf8): characters are
taken while their encoding fits in the remaining byte budget; when the
slice boundary falls strictly inside a character's encoding, the
incomplete trailing byte sequence decodes to one U+FFFD replacement
character (0xFFFD). -/
def decodeTruncated : List Nat → Nat → List Nat
  | [], _ => []
  | c :: rest, budget =>
    if utf8Len c ≤ budget then c :: decodeTruncated rest (budget - utf8Len c)
    else if budget = 0 then []
    else [0xFFFD]

/-- The fix-up while loop of TruncateItem: while the byte length still
exceeds MAX_DYNAMODB_ITEM_SIZE, drop the final character. In the source
the loop drops one UTF-16 code unit (slice(0, -1)); the loop only ever
runs on a decode result whose last character is the replacement character
U+FFFD, a basic-plane character occupying exactly one code unit, so
dropping the last character is the same operation. The fuel argument
bounds the iterations; the callers pass the list length, which the loop
never exhausts. -/
def dropWhileOverflow : Nat → List Nat → List Nat
  | 0, s => s
  | fuel + 1, s =>
    if utf8ByteLength s > MAX_DYNAMODB_ITEM_SIZE then dropWhileOverflow fuel s.dropLast
    else s

/-- TruncateItem: if the text's UTF-8 byte length is within
MAX_DYNAMODB_ITEM_SIZE it is returned unchanged and marked not truncated;
otherwise the byte buffer is cut at the limit, decoded back to text, and
trailing characters are dropped while the byte length still exceeds the
limit. -/
def TruncateItem (text : List Nat) : List Nat × Bool :=
  if utf8ByteLength text ≤ MAX_DYNAMODB_ITEM_SIZE then (text, false)
  else
    let truncated := decodeTruncated text MAX_DYNAMODB_ITEM_SIZE
    (dropWhileOverflow truncated.length truncated, true)

/-! Concrete scenario inputs used by closed theorems. -/

/-- A SKILL_EXTRACTION message shaped as the Extractor reads it: it
carries a parsedText field and a processingId. -/
def c1Msg : SkillExtractionMsg :=
  { type := "SKILL_EXTRACTION", resumeId := "r1", jobId := "j1",
    parsedContent := none, parsedText := some "Skills: Go, SQL",
    candidateEmail := "c@x.io", processingId := some "p1" }

/-- An extraction outcome that always succeeds with one skill category. -/
def c1Ex : String → Except String Skills :=
  fun _ => Except.ok [("programmingLanguages", ["Go"])]

/-- A job lookup that always succeeds. -/
def c1Gj : String → Except String Job :=
  fun _ => Except.ok { requirements := some ["Go", "SQL"] }

/-- An inference model call that returns a non-JSON reply. -/
def c1Inv : List String × Skills → Except String String :=
  fun _ => Except.ok "I think this candidate is a great fit."

/-- A reply parser that never parses (malformed reply). -/
def c1Parse : String → Option MatchScore := fun _ => none

/-- Combined ProcessingStatus write trace of the Extractor processing
c1Msg followed by the Scorer processing the SCORING messages the Extractor
enqueued (delivered as one SQS batch). -/
def c1Trace : List (Option String × Status) :=
  match extractorMain c1Ex c1Gj [{ messageId := "m1", body := Except.ok c1Msg }] with
  | Except.error _ => []
  | Except.ok res =>
    res.statusWrites ++
      match scorerMain c1Inv c1Parse
          (res.scoringMessages.map fun m => { messageId := "m2", body := Except.ok m }) with
      | Except.error _ => []
      | Except.ok sres => sres.statusWrites

/-- Body of a RESUME_PROCESSING message delivered to the Parser. -/
def c2Msg : ResumeMsg :=
  { type := "RESUME_PROCESSING", resumeId := "r1", jobId := "j1",
    s3Key := "resumes/r1.pdf", candidateEmail := "c@x.io" }

/-- A RESUME_PROCESSING record delivered to the Parser. -/
def c2Record : SqsRecord ResumeMsg :=
  { messageId := "m1", body := Except.ok c2Msg }

/-- A PDF parse that succeeds with fixed text. -/
def c2ParsePDF : String → Except String String := fun _ => Except.ok "Skills: Go, SQL"

/-- A deterministic uuidv4 stand-in: the n-th generated id is p-n. -/
def c2GenId : Nat → String := fun n => "p-" ++ toString n

/-- The batch result the Parser produces on c2Record. -/
def c2Expected : ParserResult :=
  { batchItemFailures := [],
    statusWrites := [(some "p-0", Status.PARSING), (some "p-0", Status.EXTRACTING_SKILLS)],
    skillExtractionMessages :=
      [{ type := "SKILL_EXTRACTION", resumeId := "r1", jobId := "j1",
         parsedContent := some "Skills: Go, SQL", parsedText := none,
         candidateEmail := "c@x.io", processingId := none }],
    storedResumes :=
      [{ resumeId := "r1", jobId := "j1", candidateEmail := "c@x.io",
         s3Key := "resumes/r1.pdf", parsedText := "Skills: Go, SQL",
         processingId := "p-0" }] }

/-- An inference model call that always fails. -/
def c3FailInv : List String × Skills → Except String String :=
  fun _ => Except.error "model error"

/-- Body of a SCORING message carrying processingId p1. -/
def c3ScoringMsg : ScoringMsg :=
  { type := "SCORING", resumeId := "r1", jobId := "j1",
    extractedSkills := [], jobRequirements := ["Go"], processingId := some "p1" }

/-- A SCORING record whose processing will fail (the model call fails). -/
def c3ScoringRecord : SqsRecord ScoringMsg :=
  { messageId := "m1", body := Except.ok c3ScoringMsg }

/-- A SKILL_EXTRACTION message that fails extraction: it lacks the
parsedText field the Extractor destructures. -/
def c3FailMsg : SkillExtractionMsg :=
  { type := "SKILL_EXTRACTION", resumeId := "r2", jobId := "j1",
    parsedContent := some "text", parsedText := none, candidateEmail := "d@x.io",
    processingId := none }

/-- A failing SKILL_EXTRACTION record. -/
def c3FailExtraction : SqsRecord SkillExtractionMsg :=
  { messageId := "mF", body := Except.ok c3FailMsg }

/-- An inference invocation whose reply depends on the attempt number. -/
def c6Invoke : Nat → Except String String :=
  fun i => Except.ok ("reply " ++ toString i)

/-- A reply parser that always fails (unparsable structured output). -/
def c6Parse : String → Except String Skills :=
  fun _ => Except.error "Unexpected token"

/-- A message whose type matches no stage. -/
def c7Msg : SkillExtractionMsg :=
  { type := "WRONG_TYPE", resumeId := "r1", jobId := "j1",
    parsedContent := none, parsedText := none, candidateEmail := "c@x.io",
    processingId := some "p1" }

/-- A record whose message type matches no stage. -/
def c7Record : SqsRecord SkillExtractionMsg :=
  { messageId := "m1", body := Except.ok c7Msg }

/-- A SCORING-queue message whose type matches no stage. -/
def c7ScoringMsg : ScoringMsg :=
  { type := "WRONG_TYPE", resumeId := "r1", jobId := "j1",
    extractedSkills := [], jobRequirements := [], processingId := some "p1" }

/-- A record with the mistyped scoring message. -/
def c7ScoringRecord : SqsRecord ScoringMsg :=
  { messageId := "m1", body := Except.ok c7ScoringMsg }

/-- A RESUME_PROCESSING-queue message whose type matches no stage. -/
def c7ResumeMsg : ResumeMsg :=
  { type := "WRONG_TYPE", resumeId := "r1", jobId := "j1",
    s3Key := "resumes/r1.pdf", candidateEmail := "c@x.io" }

/-- A record with the mistyped resume message. -/
def c7ResumeRecord : SqsRecord ResumeMsg :=
  { messageId := "m1", body := Except.ok c7ResumeMsg }

/-- A record whose body is not valid JSON. -/
def c8BadExtraction : SqsRecord SkillExtractionMsg :=
  { messageId := "mBad", body := Except.error "Unexpected token o in JSON" }

/-- A well-formed SKILL_EXTRACTION record following the bad one. -/
def c8GoodExtraction : SqsRecord SkillExtractionMsg :=
  { messageId := "mGood", body := Except.ok c1Msg }

/-- A record whose body is not valid JSON, delivered to the Scorer. -/
def c8BadScoring : SqsRecord ScoringMsg :=
  { messageId := "mBad", body := Except.error "Unexpected token o in JSON" }

/-- A well-formed SCORING record following the bad one. -/
def c8GoodScoring : SqsRecord ScoringMsg :=
  { messageId := "mGood", body := Except.ok c3ScoringMsg }

/-- The empty ProcessingStatus table. -/
def emptyStore : Store := fun _ _ => none

/-- Additional data of the Parser's PARSING status write: resumeId, jobId
and the start timestamp (resume parser worker lines 515-523). -/
def c9ParsingData : DbItem :=
  fun f =>
    if f = "resumeId" then some "r1"
    else if f = "jobId" then some "j1"
    else if f = "parsingStartedAt" then some "t1"
    else none

/-- Additional data of the Extractor's EXTRACTING_SKILLS status write
(skillExtractor.js lines 252-258). -/
def c9ExtractingData : DbItem :=
  fun f => if f = "skillExtractionStartedAt" then some "t2" else none

/-- The store after the Parser's PARSING put for processingId p1. -/
def c9Store1 : Store := statusPutWrite emptyStore "p1" "PARSING" "t1" c9ParsingData

/-- The store after the Extractor's EXTRACTING_SKILLS put for the same
processingId. -/
def c9Store2 : Store := statusPutWrite c9Store1 "p1" "EXTRACTING_SKILLS" "t2" c9ExtractingData

/-- Additional data of the Scorer's SCORING status update. -/
def c9ScoringData : DbItem :=
  fun f => if f = "scoringStartedAt" then some "t3" else none

/-- Truncation counterexample input: 358397 one-byte characters followed
by one four-byte character (U+10000), so the 358400-byte cut falls three
bytes into the final character. -/
def c10Cex : List Nat := List.replicate 358397 97 ++ [0x10000]

/-- A large all-ASCII input exceeding the byte limit. -/
def c10Big : List Nat := List.replicate 358401 97

/-- The match record the Scorer stores for a SCORING message whose
inference reply is malformed: the fallback score keyed resumeId-jobId. -/
def c5Record (msg : ScoringMsg) : MatchRecord :=
  { id := msg.resumeId ++ "-" ++ msg.jobId, resumeId := msg.resumeId,
    jobId := msg.jobId, score := fallbackMatchScore }

/-- The batch result built from that record: see c5Record. -/
def c5Expected (msg : ScoringMsg) : ScorerResult :=
  { processedCount := 1,
    statusWrites := [(msg.processingId, Status.SCORING), (msg.processingId, Status.COMPLETED)],
    storedScores := [c5Record msg],
    resumeStatusUpdates := [(msg.resumeId, 50)] }

instance (l : List Status) : Decidable (StatusMonotone l) :=
  inferInstanceAs (Decidable (l.Pairwise _))

/-! Theorems. -/

/-- C1: the pipeline writes statuses out of order. For a SKILL_EXTRACTION
message carrying processingId p1 whose extraction succeeds, followed by
the Scorer consuming the SCORING message the Extractor enqueued, the
statuses written for p1 are EXTRACTING_SKILLS, COMPLETED, SCORING,
COMPLETED - the Extractor's end-of-stage COMPLETED write (skillExtractor.js
lines 272-280) precedes the Scorer's SCORING write (scorer.js lines
240-242), so the write sequence regresses from COMPLETED to SCORING and is
not a subsequence of the forward progression, contradicting the claimed
status monotonicity. -/
theorem statusMonotonicity_violated :
    writesFor (some "p1") c1Trace =
      [Status.EXTRACTING_SKILLS, Status.COMPLETED, Status.SCORING, Status.COMPLETED] ∧
    ¬ StatusMonotone (writesFor (some "p1") c1Trace) := by
  constructor
  · decide
  · decide

/-- C2: the processingId is not threaded through the pipeline. The Parser
generates a fresh processingId (p-0 here) and keys its status writes by
it, but its sendForSkillExtraction call site passes no processingId, so
the SKILL_EXTRACTION message it enqueues carries none (undefined) instead
of the generated id. -/
theorem processingId_not_threaded :
    parserMain c2ParsePDF c2GenId [c2Record] = Except.ok c2Expected ∧
    c2Expected.skillExtractionMessages.map (fun m => m.processingId) = [none] ∧
    c2Expected.statusWrites =
      [(some (c2GenId 0), Status.PARSING), (some (c2GenId 0), Status.EXTRACTING_SKILLS)] := by
  refine ⟨?_, ?_, ?_⟩ <;> decide

/-- C4: retry call-count semantics of the Extractor's retry loop. A body
that fails m times and then succeeds (m < 3) yields the success result
after exactly m + 1 invocations; a body that always fails is invoked
exactly 3 times, with the sleep delay increasing on each retry (1000 then
2000 milliseconds), and the loop rethrows the last error. -/
theorem retryPolicy_callCounts :
    (∀ (α : Type) (body : Nat → Except String α) (m : Nat) (a : α),
      m < 3 → (∀ i, i < m → ∃ e, body i = Except.error e) → body m = Except.ok a →
      (invokeWithRetry body).1 = some (Except.ok a) ∧ (invokeWithRetry body).2.1 = m + 1) ∧
    (∀ (α : Type) (body : Nat → Except String α) (errs : Nat → String),
      (∀ i, i < 3 → body i = Except.error (errs i)) →
      invokeWithRetry body = (some (Except.error (errs 2)), 3, [1000, 2000])) := by
  constructor
  · intro α body m a hm hfail hok
    interval_cases m
    · simp [invokeWithRetry, retryGo, hok]
    · obtain ⟨e0, h0⟩ := hfail 0 (by norm_num)
      simp [invokeWithRetry, retryGo, h0, hok]
    · obtain ⟨e0, h0⟩ := hfail 0 (by norm_num)
      obtain ⟨e1, h1⟩ := hfail 1 (by norm_num)
      simp [invokeWithRetry, retryGo, h0, h1, hok]
  · intro α body errs h
    have h0 := h 0 (by norm_num)
    have h1 := h 1 (by norm_num)
    have h2 := h 2 (by norm_num)
    simp [invokeWithRetry, retryGo, h0, h1, h2]

/-- Witness for C4: a body failing once then succeeding returns the
success after 2 calls; a body that always fails yields the error after 3
calls with delays 1000 and 2000. -/
theorem retryPolicy_callCounts_witness :
    ((invokeWithRetry (fun i => if i < 1 then Except.error "e" else Except.ok 42)).1 =
        some (Except.ok 42) ∧
      (invokeWithRetry (fun i => if i < 1 then Except.error "e" else Except.ok 42)).2.1 =
        1 + 1) ∧
    invokeWithRetry (fun _ => (Except.error "E" : Except String Nat)) =
      (some (Except.error "E"), 3, [1000, 2000]) :=
  ⟨retryPolicy_callCounts.1 Nat (fun i => if i < 1 then Except.error "e" else Except.ok 42)
      1 42 (by norm_num)
      (fun i hi => ⟨"e", by interval_cases i; rfl⟩)
      rfl,
    retryPolicy_callCounts.2 Nat (fun _ => Except.error "E") (fun _ => "E") (fun i _ => rfl)⟩

/-- C6 is false on the code: in the Extractor's retry loop the JSON.parse
of the inference reply sits inside the same try as the model invocation,
so a parse failure is retried like any other failure. With a model that
always replies and a parser that never parses, the loop executes 3
attempt bodies - hence 3 inference invocations, not 1 as the claim (zero
additional invocations after the first parse failure) requires. -/
theorem extractorParseRetry_counterexample :
    (extractSkillsAttempts c6Invoke c6Parse).2.1 = 3 ∧
    (extractSkillsAttempts c6Invoke c6Parse).2.1 ≠ 1 := by
  constructor
  · decide
  · decide

/-- C6 amended: a structured-output parse failure inside the Extractor's
retry loop is treated exactly like a transient invocation failure: with
every reply unparsable the loop performs 3 inference invocations (the
bounded maximum), sleeps 1000 and 2000 milliseconds between them, and
surfaces the parse error of the last reply as the stage failure. -/
theorem extractor_parse_failure_is_retried (resp : Nat → String) (perr : String → String) :
    extractSkillsAttempts (fun i => (Except.ok (resp i) : Except String String))
        (fun r => (Except.error (perr r) : Except String Skills)) =
      (some (Except.error (perr (resp 2))), 3, [1000, 2000]) := rfl

/-- C5: for a SCORING message whose inference reply is malformed (the
reply parser returns none), the Scorer does not fail the item: it writes
the fallback score record - overallScore 50, confidence 0.3, empty
missingSkills and bonusSkills - keyed resumeId-jobId, updates the resume
status with score 50, and still writes SCORING then COMPLETED for the
message's processingId. -/
theorem scorer_malformed_reply_fallback
    (invokeModel : List String × Skills → Except String String)
    (parseScore : String → Option MatchScore) (reply : String) (msg : ScoringMsg)
    (mid : String) (htype : msg.type = "SCORING")
    (hinv : invokeModel (msg.jobRequirements, msg.extractedSkills) = Except.ok reply)
    (hparse : parseScore reply = none) :
    scorerMain invokeModel parseScore [{ messageId := mid, body := Except.ok msg }] =
      Except.ok (c5Expected msg) ∧
    fallbackMatchScore.overallScore = 50 ∧ fallbackMatchScore.confidence = 3 / 10 ∧
    fallbackMatchScore.missingSkills = [] ∧ fallbackMatchScore.bonusSkills = [] := by
  refine ⟨?_, rfl, rfl, rfl, rfl⟩
  simp [scorerMain, scorerGo, scorerProcessItem, scorerEmptyAcc, calculateMatchScore,
    htype, hinv, hparse, c5Expected, c5Record, fallbackMatchScore, Except.map]

/-- Witness for C5 at a concrete malformed-reply scenario. -/
theorem scorer_malformed_reply_fallback_witness :
    scorerMain c1Inv c1Parse [{ messageId := "m1", body := Except.ok c3ScoringMsg }] =
      Except.ok (c5Expected c3ScoringMsg) ∧
    fallbackMatchScore.overallScore = 50 ∧ fallbackMatchScore.confidence = 3 / 10 ∧
    fallbackMatchScore.missingSkills = [] ∧ fallbackMatchScore.bonusSkills = [] :=
  scorer_malformed_reply_fallback c1Inv c1Parse
    "I think this candidate is a great fit." c3ScoringMsg "m1" rfl rfl rfl

/-- Effect of one failing Extractor item on the failure list and the
outgoing messages: the messageId is appended and nothing is forwarded. -/
theorem extractorProcessItem_of_fails (ex : String → Except String Skills)
    (gj : String → Except String Job) (acc : ExtractorAcc) (mid : String)
    (msg : SkillExtractionMsg) (h : extractorItemOut ex gj msg = none) :
    (extractorProcessItem ex gj acc mid msg).batchItemFailures =
      acc.batchItemFailures ++ [mid] ∧
    (extractorProcessItem ex gj acc mid msg).scoringMessages = acc.scoringMessages := by
  unfold extractorProcessItem extractorFailItem
  cases hpt : msg.parsedText with
  | none => simp
  | some text =>
    simp only [extractorItemOut, hpt] at h
    cases hex : ex text with
    | error e => simp [hex]
    | ok skills =>
      simp only [hex] at h
      cases hgj : gj msg.jobId with
      | error e => simp [hex, hgj]
      | ok job =>
        simp only [hgj] at h
        exact absurd h (by simp)

/-- Effect of one successful Extractor item: the failure list is
unchanged and exactly the produced SCORING message is forwarded. -/
theorem extractorProcessItem_of_out (ex : String → Except String Skills)
    (gj : String → Except String Job) (acc : ExtractorAcc) (mid : String)
    (msg : SkillExtractionMsg) (o : (String × Skills) × ScoringMsg)
    (h : extractorItemOut ex gj msg = some o) :
    (extractorProcessItem ex gj acc mid msg).batchItemFailures = acc.batchItemFailures ∧
    (extractorProcessItem ex gj acc mid msg).scoringMessages =
      acc.scoringMessages ++ [o.2] := by
  unfold extractorProcessItem extractorFailItem
  cases hpt : msg.parsedText with
  | none => simp only [extractorItemOut, hpt] at h; exact absurd h (by simp)
  | some text =>
    simp only [extractorItemOut, hpt] at h
    cases hex : ex text with
    | error e => simp only [hex] at h; exact absurd h (by simp)
    | ok skills =>
      simp only [hex] at h
      cases hgj : gj msg.jobId with
      | error e => simp only [hgj] at h; exact absurd h (by simp)
      | ok job =>
        simp only [hgj, Option.some.injEq] at h
        subst h
        simp [hex, hgj]

/-- Batch loop of the Extractor on well-typed records: it returns, its
failure list grows by exactly the messageIds of the failing records, and
its outgoing messages grow by exactly the messages of the succeeding
records. -/
theorem extractorGo_spec (ex : String → Except String Skills)
    (gj : String → Except String Job) :
    ∀ (records : List (SqsRecord SkillExtractionMsg)) (acc : ExtractorAcc),
      (∀ r ∈ records, ∃ m, r.body = Except.ok m ∧ m.type = "SKILL_EXTRACTION") →
      ∃ acc2, extractorGo ex gj acc records = Except.ok acc2 ∧
        acc2.batchItemFailures = acc.batchItemFailures ++
          (records.filter (extractorRecordFails ex gj)).map SqsRecord.messageId ∧
        acc2.scoringMessages = acc.scoringMessages ++
          records.filterMap (extractorRecordOut ex gj) := by
  intro records
  induction records with
  | nil => exact fun acc _ => ⟨acc, rfl, by simp, by simp⟩
  | cons r rest ih =>
    intro acc h
    obtain ⟨m, hb, ht⟩ := h r (by simp)
    have hrest := fun x hx => h x (List.mem_cons_of_mem r hx)
    rcases ho : extractorItemOut ex gj m with _ | o
    · have hfails : extractorRecordFails ex gj r = true := by
        simp [extractorRecordFails, hb, ho]
      obtain ⟨f1, f2⟩ := extractorProcessItem_of_fails ex gj acc r.messageId m ho
      obtain ⟨acc2, hgo, hf, hm⟩ := ih (extractorProcessItem ex gj acc r.messageId m) hrest
      refine ⟨acc2, ?_, ?_, ?_⟩
      · simp [extractorGo, hb, ht, hgo]
      · rw [hf, f1, List.filter_cons_of_pos hfails]
        simp
      · rw [hm, f2]
        have hout : extractorRecordOut ex gj r = none := by
          simp [extractorRecordOut, hb, ho]
        simp [List.filterMap_cons, hout]
    · have hok : extractorRecordFails ex gj r = false := by
        simp [extractorRecordFails, hb, ho]
      obtain ⟨f1, f2⟩ := extractorProcessItem_of_out ex gj acc r.messageId m o ho
      obtain ⟨acc2, hgo, hf, hm⟩ := ih (extractorProcessItem ex gj acc r.messageId m) hrest
      refine ⟨acc2, ?_, ?_, ?_⟩
      · simp [extractorGo, hb, ht, hgo]
      · rw [hf, f1, List.filter_cons_of_neg (by simp [hok])]
      · rw [hm, f2]
        have hout : extractorRecordOut ex gj r = some o.2 := by
          simp [extractorRecordOut, hb, ho]
        simp [List.filterMap_cons, hout]

/-- Batch loop of the Parser on well-typed records: it returns, its
failure list grows by exactly the messageIds of the failing records, and
its outgoing messages grow by exactly the messages of the succeeding
records (which never carry a processingId). -/
theorem parserGo_spec (pp : String → Except String String) (gid : Nat → String) :
    ∀ (records : List (SqsRecord ResumeMsg)) (acc : ParserAcc) (n : Nat),
      (∀ r ∈ records, ∃ m, r.body = Except.ok m ∧ m.type = "RESUME_PROCESSING") →
      ∃ acc2, parserGo pp gid acc n records = Except.ok acc2 ∧
        acc2.batchItemFailures = acc.batchItemFailures ++
          (records.filter (parserRecordFails pp)).map SqsRecord.messageId ∧
        acc2.messages = acc.messages ++ records.filterMap (parserRecordOut pp) := by
  intro records
  induction records with
  | nil => exact fun acc n _ => ⟨acc, rfl, by simp, by simp⟩
  | cons r rest ih =>
    intro acc n h
    obtain ⟨m, hb, ht⟩ := h r (by simp)
    have hrest := fun x hx => h x (List.mem_cons_of_mem r hx)
    obtain ⟨acc2, hgo, hf, hm⟩ :=
      ih (parserProcessItem pp acc r.messageId (gid n) m) (n + 1) hrest
    cases hpd : pp m.s3Key with
    | error e =>
      have f1 : (parserProcessItem pp acc r.messageId (gid n) m).batchItemFailures =
          acc.batchItemFailures ++ [r.messageId] := by
        simp [parserProcessItem, hpd]
      have f2 : (parserProcessItem pp acc r.messageId (gid n) m).messages = acc.messages := by
        simp [parserProcessItem, hpd]
      have hfails : parserRecordFails pp r = true := by
        simp [parserRecordFails, hb, parserItemOut, hpd]
      have hout : parserRecordOut pp r = none := by
        simp [parserRecordOut, hb, parserItemOut, hpd]
      refine ⟨acc2, ?_, ?_, ?_⟩
      · simp [parserGo, hb, ht, hgo]
      · rw [hf, f1, List.filter_cons_of_pos hfails]
        simp
      · rw [hm, f2]
        simp [List.filterMap_cons, hout]
    | ok text =>
      have f1 : (parserProcessItem pp acc r.messageId (gid n) m).batchItemFailures =
          acc.batchItemFailures := by
        simp [parserProcessItem, hpd]
      have f2 : (parserProcessItem pp acc r.messageId (gid n) m).messages =
          acc.messages ++
            [sendForSkillExtraction
              { resumeId := m.resumeId, jobId := m.jobId, parsedContent := text,
                candidateEmail := m.candidateEmail, processingId := none }] := by
        simp [parserProcessItem, hpd]
      have hok : parserRecordFails pp r = false := by
        simp [parserRecordFails, hb, parserItemOut, hpd]
      have hout : parserRecordOut pp r =
          some (sendForSkillExtraction
            { resumeId := m.resumeId, jobId := m.jobId, parsedContent := text,
              candidateEmail := m.candidateEmail, processingId := none }) := by
        simp [parserRecordOut, hb, parserItemOut, hpd]
      refine ⟨acc2, ?_, ?_, ?_⟩
      · simp [parserGo, hb, ht, hgo]
      · rw [hf, f1, List.filter_cons_of_neg (by simp [hok])]
      · rw [hm, f2]
        simp [List.filterMap_cons, hout]

/-- Batch loop of the Scorer never throws when every record body parses. -/
theorem scorerGo_ok (inv : List String × Skills → Except String String)
    (pj : String → Option MatchScore) :
    ∀ (records : List (SqsRecord ScoringMsg)) (acc : ScorerAcc),
      (∀ r ∈ records, ∃ m, r.body = Except.ok m) →
      ∃ acc2, scorerGo inv pj acc records = Except.ok acc2 := by
  intro records
  induction records with
  | nil => exact fun acc _ => ⟨acc, rfl⟩
  | cons r rest ih =>
    intro acc h
    obtain ⟨m, hb⟩ := h r (by simp)
    have hrest := fun x hx => h x (List.mem_cons_of_mem r hx)
    by_cases ht : m.type = "SCORING"
    · obtain ⟨acc2, hgo⟩ := ih (scorerProcessItem inv pj acc m) hrest
      exact ⟨acc2, by simp [scorerGo, hb, ht, hgo]⟩
    · obtain ⟨acc2, hgo⟩ := ih acc hrest
      exact ⟨acc2, by simp [scorerGo, hb, ht, hgo]⟩

/-- C3 amended: per-stage batch reporting. On a well-typed batch of N
records of which exactly k fail item-level processing, the Extractor
returns exactly the k failed messageIds, failedCount k and processedCount
N - k, and forwards exactly the messages of the N - k succeeding records;
the Parser returns exactly the k failed messageIds (its returned object
carries no counts) and likewise forwards only successes; the Scorer
returns processedCount N and reports no failed identifiers at all (its
result carries no failure field). -/
theorem batch_summary_reporting :
    (∀ (ex : String → Except String Skills) (gj : String → Except String Job)
        (records : List (SqsRecord SkillExtractionMsg)),
      (∀ r ∈ records, ∃ m, r.body = Except.ok m ∧ m.type = "SKILL_EXTRACTION") →
      ∃ res, extractorMain ex gj records = Except.ok res ∧
        res.batchItemFailures =
          (records.filter (extractorRecordFails ex gj)).map SqsRecord.messageId ∧
        res.failedCount = (records.filter (extractorRecordFails ex gj)).length ∧
        res.processedCount =
          records.length - (records.filter (extractorRecordFails ex gj)).length ∧
        res.scoringMessages = records.filterMap (extractorRecordOut ex gj)) ∧
    (∀ (pp : String → Except String String) (gid : Nat → String)
        (records : List (SqsRecord ResumeMsg)),
      (∀ r ∈ records, ∃ m, r.body = Except.ok m ∧ m.type = "RESUME_PROCESSING") →
      ∃ res, parserMain pp gid records = Except.ok res ∧
        res.batchItemFailures =
          (records.filter (parserRecordFails pp)).map SqsRecord.messageId ∧
        res.skillExtractionMessages = records.filterMap (parserRecordOut pp)) ∧
    (∀ (inv : List String × Skills → Except String String)
        (pj : String → Option MatchScore) (records : List (SqsRecord ScoringMsg)),
      (∀ r ∈ records, ∃ m, r.body = Except.ok m) →
      ∃ res, scorerMain inv pj records = Except.ok res ∧
        res.processedCount = records.length) := by
  refine ⟨?_, ?_, ?_⟩
  · intro ex gj records h
    obtain ⟨acc2, hgo, hf, hm⟩ := extractorGo_spec ex gj records extractorEmptyAcc h
    have hmain : extractorMain ex gj records = Except.ok
        { processedCount := records.length - acc2.batchItemFailures.length,
          failedCount := acc2.batchItemFailures.length,
          batchItemFailures := acc2.batchItemFailures,
          statusWrites := acc2.statusWrites,
          scoringMessages := acc2.scoringMessages,
          resumeUpdates := acc2.processingResults } := by
      simp [extractorMain, hgo, Except.map]
    refine ⟨_, hmain, ?_, ?_, ?_, ?_⟩
    · simpa [extractorEmptyAcc] using hf
    · simp [extractorEmptyAcc] at hf
      simp [hf]
    · simp [extractorEmptyAcc] at hf
      simp [hf]
    · simpa [extractorEmptyAcc] using hm
  · intro pp gid records h
    obtain ⟨acc2, hgo, hf, hm⟩ := parserGo_spec pp gid records parserEmptyAcc 0 h
    have hmain : parserMain pp gid records = Except.ok
        { batchItemFailures := acc2.batchItemFailures,
          statusWrites := acc2.statusWrites ++
            acc2.processingResults.map
              (fun d => (some d.processingId, Status.EXTRACTING_SKILLS)),
          skillExtractionMessages := acc2.messages,
          storedResumes := acc2.processingResults } := by
      simp [parserMain, hgo, Except.map]
    refine ⟨_, hmain, ?_, ?_⟩
    · simpa [parserEmptyAcc] using hf
    · simpa [parserEmptyAcc] using hm
  · intro inv pj records h
    obtain ⟨acc2, hgo⟩ := scorerGo_ok inv pj records scorerEmptyAcc h
    have hmain : scorerMain inv pj records = Except.ok
        { processedCount := records.length,
          statusWrites := acc2.statusWrites,
          storedScores := acc2.storedScores,
          resumeStatusUpdates := acc2.resumeStatusUpdates } := by
      simp [scorerMain, hgo, Except.map]
    exact ⟨_, hmain, rfl⟩

/-- C3 is false as stated for the Scorer stage: on a batch of N = 1
SCORING messages of which k = 1 fails (the model call fails, witnessed by
the FAILED status write), the Scorer's batch result reports
processedCount 1 - not N - k = 0 - and carries no failed message
identifiers at all (its result has no failure fields). -/
theorem scorer_batch_summary_counterexample :
    (scorerMain c3FailInv c1Parse [c3ScoringRecord]).map ScorerResult.processedCount =
      Except.ok 1 ∧
    (scorerMain c3FailInv c1Parse [c3ScoringRecord]).map ScorerResult.processedCount ≠
      Except.ok 0 ∧
    (scorerMain c3FailInv c1Parse [c3ScoringRecord]).map ScorerResult.statusWrites =
      Except.ok [(some "p1", Status.SCORING), (some "p1", Status.FAILED)] := by
  refine ⟨?_, ?_, ?_⟩ <;> decide

/-- Witness for C3 at concrete batches: an Extractor batch with one
success and one failure, a Parser batch with one success, and a Scorer
batch with one failure. -/
theorem batch_summary_reporting_witness :
    (∃ res, extractorMain c1Ex c1Gj [c8GoodExtraction, c3FailExtraction] = Except.ok res ∧
      res.batchItemFailures = ([c8GoodExtraction, c3FailExtraction].filter
        (extractorRecordFails c1Ex c1Gj)).map SqsRecord.messageId ∧
      res.failedCount = ([c8GoodExtraction, c3FailExtraction].filter
        (extractorRecordFails c1Ex c1Gj)).length ∧
      res.processedCount = [c8GoodExtraction, c3FailExtraction].length -
        ([c8GoodExtraction, c3FailExtraction].filter
          (extractorRecordFails c1Ex c1Gj)).length ∧
      res.scoringMessages = [c8GoodExtraction, c3FailExtraction].filterMap
        (extractorRecordOut c1Ex c1Gj)) ∧
    (∃ res, parserMain c2ParsePDF c2GenId [c2Record] = Except.ok res ∧
      res.batchItemFailures =
        ([c2Record].filter (parserRecordFails c2ParsePDF)).map SqsRecord.messageId ∧
      res.skillExtractionMessages = [c2Record].filterMap (parserRecordOut c2ParsePDF)) ∧
    (∃ res, scorerMain c3FailInv c1Parse [c3ScoringRecord] = Except.ok res ∧
      res.processedCount = [c3ScoringRecord].length) :=
  ⟨batch_summary_reporting.1 c1Ex c1Gj [c8GoodExtraction, c3FailExtraction]
      (by
        intro r hr
        rcases List.mem_cons.mp hr with rfl | hr2
        · exact ⟨c1Msg, rfl, rfl⟩
        · rcases List.mem_cons.mp hr2 with rfl | hr3
          · exact ⟨c3FailMsg, rfl, rfl⟩
          · exact absurd hr3 (List.not_mem_nil r)),
    batch_summary_reporting.2.1 c2ParsePDF c2GenId [c2Record]
      (by
        intro r hr
        rcases List.mem_cons.mp hr with rfl | hr2
        · exact ⟨c2Msg, rfl, rfl⟩
        · exact absurd hr2 (List.not_mem_nil r)),
    batch_summary_reporting.2.2 c3FailInv c1Parse [c3ScoringRecord]
      (by
        intro r hr
        rcases List.mem_cons.mp hr with rfl | hr2
        · exact ⟨c3ScoringMsg, rfl⟩
        · exact absurd hr2 (List.not_mem_nil r))⟩

/-- A record with a mismatched type contributes nothing to the Extractor
batch loop: the loop's accumulator after the batch is as if the record
were absent. -/
theorem extractorGo_skip (ex : String → Except String Skills)
    (gj : String → Except String Job) (r : SqsRecord SkillExtractionMsg)
    (m : SkillExtractionMsg) (hb : r.body = Except.ok m)
    (ht : m.type ≠ "SKILL_EXTRACTION") :
    ∀ (pre post : List (SqsRecord SkillExtractionMsg)) (acc : ExtractorAcc),
      extractorGo ex gj acc (pre ++ r :: post) = extractorGo ex gj acc (pre ++ post) := by
  intro pre
  induction pre with
  | nil => intro post acc; simp [extractorGo, hb, ht]
  | cons p pre ih =>
    intro post acc
    simp only [List.cons_append, extractorGo]
    cases hpb : p.body with
    | error e => rfl
    | ok pm =>
      by_cases hpt : pm.type = "SKILL_EXTRACTION"
      · simp [hpt, ih]
      · simp [hpt, ih]

/-- A record with a mismatched type contributes nothing to the Scorer
batch loop. -/
theorem scorerGo_skip (inv : List String × Skills → Except String String)
    (pj : String → Option MatchScore) (r : SqsRecord ScoringMsg) (m : ScoringMsg)
    (hb : r.body = Except.ok m) (ht : m.type ≠ "SCORING") :
    ∀ (pre post : List (SqsRecord ScoringMsg)) (acc : ScorerAcc),
      scorerGo inv pj acc (pre ++ r :: post) = scorerGo inv pj acc (pre ++ post) := by
  intro pre
  induction pre with
  | nil => intro post acc; simp [scorerGo, hb, ht]
  | cons p pre ih =>
    intro post acc
    simp only [List.cons_append, scorerGo]
    cases hpb : p.body with
    | error e => rfl
    | ok pm =>
      by_cases hpt : pm.type = "SCORING"
      · simp [hpt, ih]
      · simp [hpt, ih]

/-- A record with a mismatched type contributes nothing to the Parser
batch loop, and consumes no generated id. -/
theorem parserGo_skip (pp : String → Except String String) (gid : Nat → String)
    (r : SqsRecord ResumeMsg) (m : ResumeMsg) (hb : r.body = Except.ok m)
    (ht : m.type ≠ "RESUME_PROCESSING") :
    ∀ (pre post : List (SqsRecord ResumeMsg)) (acc : ParserAcc) (n : Nat),
      parserGo pp gid acc n (pre ++ r :: post) = parserGo pp gid acc n (pre ++ post) := by
  intro pre
  induction pre with
  | nil => intro post acc n; simp [parserGo, hb, ht]
  | cons p pre ih =>
    intro post acc n
    simp only [List.cons_append, parserGo]
    cases hpb : p.body with
    | error e => rfl
    | ok pm =>
      by_cases hpt : pm.type = "RESUME_PROCESSING"
      · simp [hpt, ih]
      · simp [hpt, ih]

/-- The Extractor batch loop adds at most one failure per record. -/
theorem extractorGo_failures_le (ex : String → Except String Skills)
    (gj : String → Except String Job) :
    ∀ (records : List (SqsRecord SkillExtractionMsg)) (acc acc2 : ExtractorAcc),
      extractorGo ex gj acc records = Except.ok acc2 →
      acc2.batchItemFailures.length ≤ acc.batchItemFailures.length + records.length := by
  intro records
  induction records with
  | nil =>
    intro acc acc2 h
    simp only [extractorGo, Except.ok.injEq] at h
    subst h
    simp
  | cons r rest ih =>
    intro acc acc2 h
    simp only [extractorGo] at h
    cases hpb : r.body with
    | error e => rw [hpb] at h; exact absurd h (by simp)
    | ok m =>
      rw [hpb] at h
      simp only [] at h
      have hstep : ∀ acc3 : ExtractorAcc,
          (extractorProcessItem ex gj acc3 r.messageId m).batchItemFailures.length ≤
            acc3.batchItemFailures.length + 1 := by
        intro acc3
        rcases ho : extractorItemOut ex gj m with _ | o
        · obtain ⟨f1, _⟩ := extractorProcessItem_of_fails ex gj acc3 r.messageId m ho
          simp [f1]
        · obtain ⟨f1, _⟩ := extractorProcessItem_of_out ex gj acc3 r.messageId m o ho
          simp [f1]
      by_cases hpt : m.type = "SKILL_EXTRACTION"
      · rw [if_pos hpt] at h
        have := ih _ _ h
        have h2 := hstep acc
        simp only [List.length_cons]
        omega
      · rw [if_neg hpt] at h
        have := ih _ _ h
        simp only [List.length_cons]
        omega

/-- C7 amended: a message whose type does not match the stage's expected
tag is skipped: it causes no status write, never joins the failure list,
and nothing is forwarded or stored for it - the worker's outputs are those
of the batch without it - but it still inflates the returned processed
count: the Extractor's processedCount (record count minus failures) and
the Scorer's processedCount (record count) both count the skipped message
as processed, while the Parser's returned result is entirely unchanged. -/
theorem typeMismatch_skip :
    (∀ (ex : String → Except String Skills) (gj : String → Except String Job)
        (pre post : List (SqsRecord SkillExtractionMsg)) (r : SqsRecord SkillExtractionMsg)
        (m : SkillExtractionMsg) (acc : ExtractorAcc),
      r.body = Except.ok m → m.type ≠ "SKILL_EXTRACTION" →
      extractorGo ex gj acc (pre ++ r :: post) = extractorGo ex gj acc (pre ++ post)) ∧
    (∀ (ex : String → Except String Skills) (gj : String → Except String Job)
        (pre post : List (SqsRecord SkillExtractionMsg)) (r : SqsRecord SkillExtractionMsg)
        (m : SkillExtractionMsg) (res : ExtractorResult),
      r.body = Except.ok m → m.type ≠ "SKILL_EXTRACTION" →
      extractorMain ex gj (pre ++ r :: post) = Except.ok res →
      ∃ res2, extractorMain ex gj (pre ++ post) = Except.ok res2 ∧
        res.processedCount = res2.processedCount + 1 ∧
        res.failedCount = res2.failedCount ∧
        res.batchItemFailures = res2.batchItemFailures ∧
        res.statusWrites = res2.statusWrites ∧
        res.scoringMessages = res2.scoringMessages ∧
        res.resumeUpdates = res2.resumeUpdates) ∧
    (∀ (inv : List String × Skills → Except String String)
        (pj : String → Option MatchScore)
        (pre post : List (SqsRecord ScoringMsg)) (r : SqsRecord ScoringMsg)
        (m : ScoringMsg) (res : ScorerResult),
      r.body = Except.ok m → m.type ≠ "SCORING" →
      scorerMain inv pj (pre ++ r :: post) = Except.ok res →
      ∃ res2, scorerMain inv pj (pre ++ post) = Except.ok res2 ∧
        res.processedCount = res2.processedCount + 1 ∧
        res.statusWrites = res2.statusWrites ∧
        res.storedScores = res2.storedScores ∧
        res.resumeStatusUpdates = res2.resumeStatusUpdates) ∧
    (∀ (pp : String → Except String String) (gid : Nat → String)
        (pre post : List (SqsRecord ResumeMsg)) (r : SqsRecord ResumeMsg) (m : ResumeMsg),
      r.body = Except.ok m → m.type ≠ "RESUME_PROCESSING" →
      parserMain pp gid (pre ++ r :: post) = parserMain pp gid (pre ++ post)) := by
  refine ⟨?_, ?_, ?_, ?_⟩
  · intro ex gj pre post r m acc hb ht
    exact extractorGo_skip ex gj r m hb ht pre post acc
  · intro ex gj pre post r m res hb ht hmain
    unfold extractorMain at hmain
    rw [extractorGo_skip ex gj r m hb ht pre post extractorEmptyAcc] at hmain
    cases hgo : extractorGo ex gj extractorEmptyAcc (pre ++ post) with
    | error e => rw [hgo] at hmain; exact absurd hmain (by simp [Except.map])
    | ok acc2 =>
      rw [hgo] at hmain
      simp only [Except.map, Except.ok.injEq] at hmain
      subst hmain
      have hk := extractorGo_failures_le ex gj (pre ++ post) extractorEmptyAcc acc2 hgo
      simp only [extractorEmptyAcc, List.length_nil, Nat.zero_add] at hk
      have hmain2 : extractorMain ex gj (pre ++ post) = Except.ok
          { processedCount := (pre ++ post).length - acc2.batchItemFailures.length,
            failedCount := acc2.batchItemFailures.length,
            batchItemFailures := acc2.batchItemFailures,
            statusWrites := acc2.statusWrites,
            scoringMessages := acc2.scoringMessages,
            resumeUpdates := acc2.processingResults } := by
        simp [extractorMain, hgo, Except.map]
      refine ⟨_, hmain2, ?_, rfl, rfl, rfl, rfl, rfl⟩
      simp only [List.length_append, List.length_cons] at hk ⊢
      omega
  · intro inv pj pre post r m res hb ht hmain
    unfold scorerMain at hmain
    rw [scorerGo_skip inv pj r m hb ht pre post scorerEmptyAcc] at hmain
    cases hgo : scorerGo inv pj scorerEmptyAcc (pre ++ post) with
    | error e => rw [hgo] at hmain; exact absurd hmain (by simp [Except.map])
    | ok acc2 =>
      rw [hgo] at hmain
      simp only [Except.map, Except.ok.injEq] at hmain
      subst hmain
      have hmain2 : scorerMain inv pj (pre ++ post) = Except.ok
          { processedCount := (pre ++ post).length,
            statusWrites := acc2.statusWrites,
            storedScores := acc2.storedScores,
            resumeStatusUpdates := acc2.resumeStatusUpdates } := by
        simp [scorerMain, hgo, Except.map]
      refine ⟨_, hmain2, ?_, rfl, rfl, rfl⟩
      simp only [List.length_append, List.length_cons]
      omega
  · intro pp gid pre post r m hb ht
    unfold parserMain
    rw [parserGo_skip pp gid r m hb ht pre post parserEmptyAcc 0]

/-- C7 is false as stated on the counts: a single-record Extractor batch
whose message has a non-matching type produces no status write and no
failure, yet the batch result reports processedCount 1 - the skipped
message is counted as processed (processedCount is the record count minus
the failure count), where the claim requires it to contribute to neither
count (processedCount 0, as for the empty batch). -/
theorem typeMismatch_skip_counterexample :
    extractorMain c1Ex c1Gj [c7Record] = Except.ok
      { processedCount := 1, failedCount := 0, batchItemFailures := [],
        statusWrites := [], scoringMessages := [], resumeUpdates := [] } ∧
    extractorMain c1Ex c1Gj [] = Except.ok
      { processedCount := 0, failedCount := 0, batchItemFailures := [],
        statusWrites := [], scoringMessages := [], resumeUpdates := [] } := by
  constructor
  · decide
  · decide

/-- Witness for C7 at concrete mistyped records for all three stages. -/
theorem typeMismatch_skip_witness :
    (extractorGo c1Ex c1Gj extractorEmptyAcc ([] ++ c7Record :: []) =
      extractorGo c1Ex c1Gj extractorEmptyAcc ([] ++ [])) ∧
    (∃ res2, extractorMain c1Ex c1Gj ([] ++ []) = Except.ok res2 ∧
      (1 : Nat) = res2.processedCount + 1 ∧ (0 : Nat) = res2.failedCount ∧
      ([] : List String) = res2.batchItemFailures ∧
      ([] : List (Option String × Status)) = res2.statusWrites ∧
      ([] : List ScoringMsg) = res2.scoringMessages ∧
      ([] : List (String × Skills)) = res2.resumeUpdates) ∧
    (∃ res2, scorerMain c3FailInv c1Parse ([] ++ []) = Except.ok res2 ∧
      (1 : Nat) = res2.processedCount + 1 ∧
      ([] : List (Option String × Status)) = res2.statusWrites ∧
      ([] : List MatchRecord) = res2.storedScores ∧
      ([] : List (String × ℚ)) = res2.resumeStatusUpdates) ∧
    parserMain c2ParsePDF c2GenId ([] ++ c7ResumeRecord :: []) =
      parserMain c2ParsePDF c2GenId ([] ++ []) := by
  refine ⟨?_, ?_, ?_, ?_⟩
  · exact typeMismatch_skip.1 c1Ex c1Gj [] [] c7Record c7Msg extractorEmptyAcc rfl
      (by decide)
  · have h := typeMismatch_skip.2.1 c1Ex c1Gj [] [] c7Record c7Msg
      { processedCount := 1, failedCount := 0, batchItemFailures := [],
        statusWrites := [], scoringMessages := [], resumeUpdates := [] }
      rfl (by decide) (by decide)
    exact h
  · have h := typeMismatch_skip.2.2.1 c3FailInv c1Parse [] [] c7ScoringRecord c7ScoringMsg
      { processedCount := 1, statusWrites := [], storedScores := [],
        resumeStatusUpdates := [] }
      rfl (by decide) (by decide)
    exact h
  · exact typeMismatch_skip.2.2.2 c2ParsePDF c2GenId [] [] c7ResumeRecord c7ResumeMsg rfl
      (by decide)

/-- A record whose body fails JSON.parse throws out of the Extractor
batch loop once every record before it has a parsable body. -/
theorem extractorGo_aborts (ex : String → Except String Skills)
    (gj : String → Except String Job) (bad : SqsRecord SkillExtractionMsg) (e : String)
    (hbad : bad.body = Except.error e) :
    ∀ (pre post : List (SqsRecord SkillExtractionMsg)) (acc : ExtractorAcc),
      (∀ r ∈ pre, ∃ m, r.body = Except.ok m) →
      extractorGo ex gj acc (pre ++ bad :: post) = Except.error e := by
  intro pre
  induction pre with
  | nil => intro post acc _; simp [extractorGo, hbad]
  | cons p pre ih =>
    intro post acc h
    obtain ⟨pm, hpb⟩ := h p (by simp)
    have hrest := fun x hx => h x (List.mem_cons_of_mem p hx)
    simp only [List.cons_append, extractorGo]
    rw [hpb]
    by_cases hpt : pm.type = "SKILL_EXTRACTION"
    · simp only [hpt]
      simp [ih post _ hrest]
    · simp only [if_neg hpt]
      exact ih post acc hrest

/-- A record whose body fails JSON.parse throws out of the Scorer batch
loop once every record before it has a parsable body. -/
theorem scorerGo_aborts (inv : List String × Skills → Except String String)
    (pj : String → Option MatchScore) (bad : SqsRecord ScoringMsg) (e : String)
    (hbad : bad.body = Except.error e) :
    ∀ (pre post : List (SqsRecord ScoringMsg)) (acc : ScorerAcc),
      (∀ r ∈ pre, ∃ m, r.body = Except.ok m) →
      scorerGo inv pj acc (pre ++ bad :: post) = Except.error e := by
  intro pre
  induction pre with
  | nil => intro post acc _; simp [scorerGo, hbad]
  | cons p pre ih =>
    intro post acc h
    obtain ⟨pm, hpb⟩ := h p (by simp)
    have hrest := fun x hx => h x (List.mem_cons_of_mem p hx)
    simp only [List.cons_append, scorerGo]
    rw [hpb]
    by_cases hpt : pm.type = "SCORING"
    · simp only [hpt]
      simp [ih post _ hrest]
    · simp only [if_neg hpt]
      exact ih post acc hrest

/-- A record whose body fails JSON.parse throws out of the Parser batch
loop once every record before it has a parsable body. -/
theorem parserGo_aborts (pp : String → Except String String) (gid : Nat → String)
    (bad : SqsRecord ResumeMsg) (e : String) (hbad : bad.body = Except.error e) :
    ∀ (pre post : List (SqsRecord ResumeMsg)) (acc : ParserAcc) (n : Nat),
      (∀ r ∈ pre, ∃ m, r.body = Except.ok m) →
      parserGo pp gid acc n (pre ++ bad :: post) = Except.error e := by
  intro pre
  induction pre with
  | nil => intro post acc n _; simp [parserGo, hbad]
  | cons p pre ih =>
    intro post acc n h
    obtain ⟨pm, hpb⟩ := h p (by simp)
    have hrest := fun x hx => h x (List.mem_cons_of_mem p hx)
    simp only [List.cons_append, parserGo]
    rw [hpb]
    by_cases hpt : pm.type = "RESUME_PROCESSING"
    · simp only [hpt]
      simp [ih post _ _ hrest]
    · simp only [if_neg hpt]
      exact ih post acc n hrest

/-- C8 amended: a message whose body cannot be parsed is not a soft
failure. JSON.parse of the record body runs before the per-item try block
in all three workers, so the parse error propagates out of the batch loop:
the whole invocation throws the parse error, no batch result (and no
failure list) is returned, and the messages after the bad one are not
processed. -/
theorem bodyParse_failure_aborts_batch :
    (∀ (ex : String → Except String Skills) (gj : String → Except String Job)
        (pre post : List (SqsRecord SkillExtractionMsg))
        (bad : SqsRecord SkillExtractionMsg) (e : String),
      bad.body = Except.error e → (∀ r ∈ pre, ∃ m, r.body = Except.ok m) →
      extractorMain ex gj (pre ++ bad :: post) = Except.error e) ∧
    (∀ (inv : List String × Skills → Except String String)
        (pj : String → Option MatchScore) (pre post : List (SqsRecord ScoringMsg))
        (bad : SqsRecord ScoringMsg) (e : String),
      bad.body = Except.error e → (∀ r ∈ pre, ∃ m, r.body = Except.ok m) →
      scorerMain inv pj (pre ++ bad :: post) = Except.error e) ∧
    (∀ (pp : String → Except String String) (gid : Nat → String)
        (pre post : List (SqsRecord ResumeMsg)) (bad : SqsRecord ResumeMsg) (e : String),
      bad.body = Except.error e → (∀ r ∈ pre, ∃ m, r.body = Except.ok m) →
      parserMain pp gid (pre ++ bad :: post) = Except.error e) := by
  refine ⟨?_, ?_, ?_⟩
  · intro ex gj pre post bad e hbad h
    simp [extractorMain, extractorGo_aborts ex gj bad e hbad pre post extractorEmptyAcc h,
      Except.map]
  · intro inv pj pre post bad e hbad h
    simp [scorerMain, scorerGo_aborts inv pj bad e hbad pre post scorerEmptyAcc h,
      Except.map]
  · intro pp gid pre post bad e hbad h
    simp [parserMain, parserGo_aborts pp gid bad e hbad pre post parserEmptyAcc 0 h,
      Except.map]

/-- C8 is false as stated: a batch holding an unparsable-body record and
a well-formed record does not yield a batch result with the bad message
marked failed - the whole invocation throws the parse error instead, for
the Extractor and the Scorer alike. -/
theorem bodyParse_failure_counterexample :
    extractorMain c1Ex c1Gj [c8BadExtraction, c8GoodExtraction] =
      Except.error "Unexpected token o in JSON" ∧
    scorerMain c1Inv c1Parse [c8BadScoring, c8GoodScoring] =
      Except.error "Unexpected token o in JSON" := by
  constructor
  · decide
  · decide

/-- Witness for C8: the bad-body record aborts the Extractor and Scorer
batches even after a well-formed first record. -/
theorem bodyParse_failure_aborts_batch_witness :
    extractorMain c1Ex c1Gj ([c8GoodExtraction] ++ c8BadExtraction :: []) =
      Except.error "Unexpected token o in JSON" ∧
    scorerMain c1Inv c1Parse ([c8GoodScoring] ++ c8BadScoring :: []) =
      Except.error "Unexpected token o in JSON" ∧
    parserMain c2ParsePDF c2GenId ([c2Record] ++
        ({ messageId := "mBad", body := Except.error "Unexpected token o in JSON" } :
          SqsRecord ResumeMsg) :: []) =
      Except.error "Unexpected token o in JSON" :=
  ⟨bodyParse_failure_aborts_batch.1 c1Ex c1Gj [c8GoodExtraction] [] c8BadExtraction
      "Unexpected token o in JSON" rfl
      (by
        intro r hr
        rcases List.mem_cons.mp hr with rfl | hr2
        · exact ⟨c1Msg, rfl⟩
        · exact absurd hr2 (List.not_mem_nil r)),
    bodyParse_failure_aborts_batch.2.1 c1Inv c1Parse [c8GoodScoring] [] c8BadScoring
      "Unexpected token o in JSON" rfl
      (by
        intro r hr
        rcases List.mem_cons.mp hr with rfl | hr2
        · exact ⟨c3ScoringMsg, rfl⟩
        · exact absurd hr2 (List.not_mem_nil r)),
    bodyParse_failure_aborts_batch.2.2 c2ParsePDF c2GenId [c2Record] []
      { messageId := "mBad", body := Except.error "Unexpected token o in JSON" }
      "Unexpected token o in JSON" rfl
      (by
        intro r hr
        rcases List.mem_cons.mp hr with rfl | hr2
        · exact ⟨c2Msg, rfl⟩
        · exact absurd hr2 (List.not_mem_nil r))⟩

/-- C9 is false as stated: the Parser's and Extractor's status writes are
whole-item PutRequests, so they replace the entire ProcessingStatus
record. After the Parser's PARSING put stores resumeId r1 for
processingId p1, the Extractor's EXTRACTING_SKILLS put for the same id
erases the resumeId attribute, although that write did not name it. -/
theorem statusWrite_frame_counterexample :
    c9Store1 "p1" "resumeId" = some "r1" ∧
    c9Store2 "p1" "status" = some "EXTRACTING_SKILLS" ∧
    c9Store2 "p1" "resumeId" = none := by
  refine ⟨?_, ?_, ?_⟩ <;> decide

/-- C9 amended: only the Scorer's status write has the frame property.
The Scorer's UpdateCommand overwrites exactly the named attributes
(status, updatedAt and the additionalData keys) and preserves every other
attribute of the record, and touches no other record; the Parser's and
Extractor's status writes are whole-item puts whose outcome is exactly
the freshly built item, independent of what the record held before - any
attribute not re-supplied (such as resumeId or jobId written at the
PARSING step) is lost. -/
theorem statusWrite_semantics :
    (∀ (store : Store) (pid status t : String) (add : DbItem) (f : String),
      add f = none → f ≠ "status" → f ≠ "updatedAt" →
      statusUpdateWrite store pid status t add pid f = store pid f) ∧
    (∀ (store : Store) (pid status t : String) (add : DbItem) (k : String),
      k ≠ pid → statusUpdateWrite store pid status t add k = store k) ∧
    (∀ (store : Store) (pid status t : String) (add : DbItem) (f : String),
      statusPutWrite store pid status t add pid f = mkStatusPutItem pid status t add f) := by
  refine ⟨?_, ?_, ?_⟩
  · intro store pid status t add f hadd hs hu
    unfold statusUpdateWrite updateItem
    rw [if_pos rfl]
    by_cases hid : f = "id"
    · simp [hs, hu, hid]
    · simp [hs, hu, hid, hadd]
  · intro store pid status t add k hk
    unfold statusUpdateWrite updateItem
    rw [if_neg hk]
  · intro store pid status t add f
    unfold statusPutWrite putItem
    rw [if_pos rfl]

/-- Witness for C9: a Scorer update on the stored record preserves the
resumeId attribute it does not name, leaves other records alone, and a
put yields exactly the built item. -/
theorem statusWrite_semantics_witness :
    statusUpdateWrite c9Store1 "p1" "SCORING" "t3" c9ScoringData "p1" "resumeId" =
      c9Store1 "p1" "resumeId" ∧
    statusUpdateWrite c9Store1 "p1" "SCORING" "t3" c9ScoringData "p2" =
      c9Store1 "p2" ∧
    statusPutWrite c9Store1 "p1" "EXTRACTING_SKILLS" "t2" c9ExtractingData "p1" "resumeId" =
      mkStatusPutItem "p1" "EXTRACTING_SKILLS" "t2" c9ExtractingData "resumeId" :=
  ⟨statusWrite_semantics.1 c9Store1 "p1" "SCORING" "t3" c9ScoringData "resumeId"
      rfl (by decide) (by decide),
    statusWrite_semantics.2.1 c9Store1 "p1" "SCORING" "t3" c9ScoringData "p2" (by decide),
    statusWrite_semantics.2.2 c9Store1 "p1" "EXTRACTING_SKILLS" "t2" c9ExtractingData
      "resumeId"⟩

/-- UTF-8 byte length distributes over append. -/
theorem utf8ByteLength_append (xs ys : List Nat) :
    utf8ByteLength (xs ++ ys) = utf8ByteLength xs + utf8ByteLength ys := by
  simp [utf8ByteLength]

/-- UTF-8 byte length of n copies of the one-byte character a. -/
theorem utf8ByteLength_replicate_97 (n : Nat) :
    utf8ByteLength (List.replicate n 97) = n := by
  simp [utf8ByteLength, List.sum_replicate, utf8Len, smul_eq_mul]

/-- Decoding the 358400-byte slice of n one-byte characters followed by a
four-byte character, with budget n + 3: the cut falls three bytes into the
final character, which decodes to one replacement character. -/
theorem decodeTruncated_repl (n : Nat) :
    decodeTruncated (List.replicate n 97 ++ [65536]) (n + 3) =
      List.replicate n 97 ++ [0xFFFD] := by
  induction n with
  | zero => decide
  | succ n ih =>
    rw [List.replicate_succ, List.cons_append]
    have hfit : utf8Len 97 ≤ n + 1 + 3 := by simp [utf8Len]
    simp only [decodeTruncated, if_pos hfit]
    have harith : n + 1 + 3 - utf8Len 97 = n + 3 := by simp [utf8Len]
    rw [harith, ih]
    simp [List.replicate_succ]

/-- The fix-up loop is the identity once the byte length is within the
limit. -/
theorem dropWhileOverflow_of_le (s : List Nat)
    (h : utf8ByteLength s ≤ MAX_DYNAMODB_ITEM_SIZE) :
    ∀ fuel, dropWhileOverflow fuel s = s := by
  intro fuel
  cases fuel with
  | zero => rfl
  | succ fuel =>
    simp only [dropWhileOverflow]
    rw [if_neg (not_lt.mpr h)]

/-- The fix-up loop only removes trailing characters. -/
theorem dropWhileOverflow_isPre : ∀ (fuel : Nat) (s : List Nat),
    dropWhileOverflow fuel s <+: s := by
  intro fuel
  induction fuel with
  | zero => intro s; exact List.prefix_refl s
  | succ fuel ih =>
    intro s
    simp only [dropWhileOverflow]
    by_cases h : utf8ByteLength s > MAX_DYNAMODB_ITEM_SIZE
    · rw [if_pos h]
      have hdl := List.dropLast_prefix s
      exact (ih s.dropLast).trans hdl
    · rw [if_neg h]

/-- With enough fuel the fix-up loop lands within the byte limit. -/
theorem dropWhileOverflow_le : ∀ (fuel : Nat) (s : List Nat), s.length ≤ fuel →
    utf8ByteLength (dropWhileOverflow fuel s) ≤ MAX_DYNAMODB_ITEM_SIZE := by
  intro fuel
  induction fuel with
  | zero =>
    intro s hs
    have hnil : s = [] := List.length_eq_zero.mp (Nat.le_zero.mp hs)
    subst hnil
    simp [dropWhileOverflow, utf8ByteLength]
  | succ fuel ih =>
    intro s hs
    simp only [dropWhileOverflow]
    by_cases h : utf8ByteLength s > MAX_DYNAMODB_ITEM_SIZE
    · rw [if_pos h]
      apply ih
      have hdl := List.length_dropLast s
      omega
    · rw [if_neg h]
      exact Nat.le_of_not_lt h

/-- Every character encodes to at least one byte. -/
theorem utf8Len_pos (c : Nat) : 0 < utf8Len c := by
  unfold utf8Len
  split_ifs <;> norm_num

/-- The decoder returns a prefix of the input, possibly followed by one
replacement character standing for an incompletely sliced character. -/
theorem decodeTruncated_structure : ∀ (s : List Nat) (b : Nat),
    ∃ p, p <+: s ∧ (decodeTruncated s b = p ∨ decodeTruncated s b = p ++ [0xFFFD]) := by
  intro s
  induction s with
  | nil => intro b; exact ⟨[], List.prefix_refl [], Or.inl rfl⟩
  | cons c rest ih =>
    intro b
    by_cases hfit : utf8Len c ≤ b
    · obtain ⟨p, hp, hc⟩ := ih (b - utf8Len c)
      refine ⟨c :: p, ?_, ?_⟩
      · obtain ⟨t, ht⟩ := hp
        exact ⟨t, by rw [List.cons_append, ht]⟩
      · simp only [decodeTruncated, if_pos hfit]
        rcases hc with hq | hq
        · exact Or.inl (by rw [hq])
        · exact Or.inr (by rw [hq, List.cons_append])
    · by_cases hb0 : b = 0
      · subst hb0
        refine ⟨[], ⟨c :: rest, rfl⟩, Or.inl ?_⟩
        simp [decodeTruncated, (utf8Len_pos c).ne']
      · refine ⟨[], ⟨c :: rest, rfl⟩, Or.inr ?_⟩
        simp [decodeTruncated, hfit, hb0]

/-- A prefix of a list with one appended element is a prefix of the list
or the whole appended list. -/
theorem isPre_snoc_cases {α : Type} (r p : List α) (x : α) (h : r <+: p ++ [x]) :
    r <+: p ∨ r = p ++ [x] := by
  obtain ⟨t, ht⟩ := h
  rcases List.eq_nil_or_concat t with rfl | ⟨t2, y, rfl⟩
  · right
    simpa using ht
  · left
    rw [List.concat_eq_append, ← List.append_assoc] at ht
    have h2 := List.append_inj' ht rfl
    exact ⟨t2, h2.1⟩

/-- A list with one appended element is a prefix of the same list with a
different appended element only if the elements agree. -/
theorem snoc_isPre_snoc {α : Type} : ∀ (l : List α) (x y : α),
    (l ++ [x]) <+: (l ++ [y]) → x = y := by
  intro l
  induction l with
  | nil =>
    intro x y h
    obtain ⟨t, ht⟩ := h
    simp only [List.nil_append, List.singleton_append, List.cons.injEq] at ht
    exact ht.1
  | cons a l ih =>
    intro x y h
    obtain ⟨t, ht⟩ := h
    simp only [List.cons_append] at ht
    injection ht with h1 h2
    exact ih x y ⟨t, h2⟩

/-- Evaluation of TruncateItem on the counterexample input: the decoded
slice keeps 358397 one-byte characters and one replacement character for
the three leftover bytes of the final four-byte character; its byte length
is exactly the limit, so the fix-up loop removes nothing. -/
theorem truncateCexResult :
    TruncateItem c10Cex = (List.replicate 358397 97 ++ [0xFFFD], true) := by
  have hMAX : MAX_DYNAMODB_ITEM_SIZE = 358400 := by norm_num [MAX_DYNAMODB_ITEM_SIZE]
  have hlen : utf8ByteLength c10Cex = 358401 := by
    unfold c10Cex
    rw [utf8ByteLength_append, utf8ByteLength_replicate_97]
    decide
  have hdec : decodeTruncated c10Cex MAX_DYNAMODB_ITEM_SIZE =
      List.replicate 358397 97 ++ [0xFFFD] := by
    unfold c10Cex
    rw [hMAX]
    have h358 := decodeTruncated_repl 358397
    norm_num at h358
    exact h358
  have hblen : utf8ByteLength (List.replicate 358397 97 ++ [0xFFFD]) = 358400 := by
    rw [utf8ByteLength_append, utf8ByteLength_replicate_97]
    decide
  unfold TruncateItem
  rw [if_neg (by rw [hlen, hMAX]; norm_num)]
  show (dropWhileOverflow (decodeTruncated c10Cex MAX_DYNAMODB_ITEM_SIZE).length
    (decodeTruncated c10Cex MAX_DYNAMODB_ITEM_SIZE), true) = _
  rw [hdec, dropWhileOverflow_of_le _ (le_of_eq (hblen.trans hMAX.symm)) _]

/-- C10 is false as stated: on 358397 one-byte characters followed by one
four-byte character, the 358400-byte cut keeps three bytes of the final
character, which decode to one U+FFFD replacement character; the result
then has byte length exactly 358400, so the fix-up loop removes nothing
and the returned text ends in U+FFFD - it is marked truncated but is not
a prefix of the input. -/
theorem truncate_prefix_counterexample :
    (TruncateItem c10Cex).2 = true ∧ ¬ (TruncateItem c10Cex).1 <+: c10Cex := by
  constructor
  · exact congrArg Prod.snd truncateCexResult
  · intro hpre
    rw [congrArg Prod.fst truncateCexResult] at hpre
    unfold c10Cex at hpre
    exact absurd (snoc_isPre_snoc _ _ _ hpre) (by decide)

/-- C10 amended: TruncateItem returns the input unchanged and marks it
not truncated exactly when the UTF-8 byte length is within
MAX_DYNAMODB_ITEM_SIZE; otherwise it marks the result truncated, the
result's byte length is within the limit, and the result is either a
prefix of the input or such a prefix followed by one U+FFFD replacement
character - the latter occurring when the byte cut falls three bytes into
a four-byte character, so the result is then not a prefix of the input. -/
theorem TruncateItem_amended (s : List Nat) :
    (utf8ByteLength s ≤ MAX_DYNAMODB_ITEM_SIZE → TruncateItem s = (s, false)) ∧
    (MAX_DYNAMODB_ITEM_SIZE < utf8ByteLength s →
      (TruncateItem s).2 = true ∧
      utf8ByteLength (TruncateItem s).1 ≤ MAX_DYNAMODB_ITEM_SIZE ∧
      ∃ p, p <+: s ∧ ((TruncateItem s).1 = p ∨ (TruncateItem s).1 = p ++ [0xFFFD])) := by
  constructor
  · intro h
    unfold TruncateItem
    rw [if_pos h]
  · intro h
    have hnle : ¬ utf8ByteLength s ≤ MAX_DYNAMODB_ITEM_SIZE := not_le.mpr h
    have hres : TruncateItem s =
        (dropWhileOverflow (decodeTruncated s MAX_DYNAMODB_ITEM_SIZE).length
          (decodeTruncated s MAX_DYNAMODB_ITEM_SIZE), true) := by
      unfold TruncateItem
      rw [if_neg hnle]
    refine ⟨by rw [hres], ?_, ?_⟩
    · rw [hres]
      exact dropWhileOverflow_le _ _ (le_refl _)
    · obtain ⟨p, hp, hc⟩ := decodeTruncated_structure s MAX_DYNAMODB_ITEM_SIZE
      have hrespre : (TruncateItem s).1 <+: decodeTruncated s MAX_DYNAMODB_ITEM_SIZE := by
        rw [hres]
        exact dropWhileOverflow_isPre _ _
      rcases hc with hq | hq
      · rw [hq] at hrespre
        exact ⟨(TruncateItem s).1, hrespre.trans hp, Or.inl rfl⟩
      · rw [hq] at hrespre
        rcases isPre_snoc_cases _ _ _ hrespre with h2 | h2
        · exact ⟨(TruncateItem s).1, h2.trans hp, Or.inl rfl⟩
        · exact ⟨p, hp, Or.inr h2⟩

/-- Witness for C10: a short text passes through unchanged; an over-limit
all-ASCII text is marked truncated, fits the limit, and is a prefix (or a
prefix plus one replacement character) of the input. -/
theorem TruncateItem_amended_witness :
    TruncateItem [97] = ([97], false) ∧
    ((TruncateItem c10Big).2 = true ∧
      utf8ByteLength (TruncateItem c10Big).1 ≤ MAX_DYNAMODB_ITEM_SIZE ∧
      ∃ p, p <+: c10Big ∧
        ((TruncateItem c10Big).1 = p ∨ (TruncateItem c10Big).1 = p ++ [0xFFFD])) :=
  ⟨(TruncateItem_amended [97]).1 (by decide),
    (TruncateItem_amended c10Big).2 (by
      unfold c10Big
      rw [utf8ByteLength_replicate_97]
      norm_num [MAX_DYNAMODB_ITEM_SIZE])⟩

end Pipeline
